import Mathlib

/-!
Verification of the GPA calculator core (src/script.js): the data layer
(GPADataLayer), the processing layer (GPAProcessor) and the persistence
round trip, shallowly embedded in Lean.

Modelling conventions:
* JavaScript numbers are modelled as exact rationals.  A value that can be
  NaN is modelled as `Option ℚ` with `none` playing the role of NaN
  (NaN-propagating arithmetic is modelled by `addN`, `mulN`, `divN`).
  Where the IEEE special values NaN / Infinity matter as first-class
  inputs (the `credits` argument of `validateCourse`), the richer type
  `JSNum` is used.
* `Number.prototype.toFixed(2)` produces a decimal string; the model keeps
  its numeric value, namely the argument rounded to two decimal places
  with ties going up, which is `⌊100 q + 1/2⌋ / 100` in exact arithmetic.
* `parseFloat` is modelled for decimal literals (optional sign, integer
  digits, optional fractional digits, longest valid prefix); an input with
  no parsable numeric prefix yields `none` (NaN).  Exponents and the
  literal `Infinity` are not modelled; the grade tokens this program
  parses are plain decimal literals.
* `localStorage` holds a single well-known key; the model keeps the value
  stored under that key as a structured JSON value (`Option Json`, `none`
  meaning the key is absent).  `JSON.stringify` / `JSON.parse` on course
  arrays are modelled by `encodeCourses` / `decodeCourses` over that
  structured value.
* Stored records come in two granularities: `CourseRec` (finite rational
  credits) covers the Course data model of the spec and is used by the
  claims about that domain, while `JSCourseRec` covers the full dynamic
  range the program can actually store — the validation check also passes
  credits equal to positive infinity, which `JSON.stringify` then turns
  into null — and is used by the store-invariant claim.
-/

attribute [local semireducible] Rat.add Rat.mul Rat.inv Rat.sub Rat.ofScientific

/-- A JavaScript number as far as validation is concerned: NaN, an
infinity of either sign, or a finite value (modelled exactly). -/
inductive JSNum where
  | nan : JSNum
  | inf (positive : Bool) : JSNum
  | num (q : ℚ) : JSNum
deriving DecidableEq, Repr

/-- The JavaScript `isNaN` test on a `JSNum`. -/
def jsIsNaN : JSNum → Bool
  | JSNum.nan => true
  | _ => false

/-- The JavaScript comparison `x <= 0` on a `JSNum` (false for NaN). -/
def jsLeZero : JSNum → Bool
  | JSNum.nan => false
  | JSNum.inf b => !b
  | JSNum.num q => decide (q ≤ 0)

/-- Numeric value of `q.toFixed(2)`: rounding to two decimal places, ties
going to the larger candidate, as ECMAScript `toFixed` prescribes. -/
def jsToFixed2 (q : ℚ) : ℚ := (Rat.floor (q * 100 + 1 / 2) : ℚ) / 100

/-- Numeric value of a list of decimal digit characters. -/
def digitsToNat (ds : List Char) : ℕ :=
  ds.foldl (fun a c => a * 10 + (c.toNat - 48)) 0

/-- Model of JavaScript `parseFloat` on a string: skip leading
whitespace, optional sign, digits, optional dot and fractional digits,
ignoring any trailing garbage; `none` models NaN (no parsable prefix). -/
def parseFloatQ (s : String) : Option ℚ :=
  let cs := s.data.dropWhile Char.isWhitespace
  let signAndRest : ℚ × List Char :=
    match cs with
    | '-' :: rest => (-1, rest)
    | '+' :: rest => (1, rest)
    | _ => (1, cs)
  let sign := signAndRest.1
  let cs1 := signAndRest.2
  let intPart := cs1.takeWhile Char.isDigit
  let afterInt := cs1.dropWhile Char.isDigit
  let fracPart : List Char :=
    match afterInt with
    | '.' :: rest => rest.takeWhile Char.isDigit
    | _ => []
  if intPart.isEmpty && fracPart.isEmpty then none
  else some (sign * ((digitsToNat intPart : ℚ) +
    (digitsToNat fracPart : ℚ) / (10 ^ fracPart.length)))

/-- Model of JavaScript `String.prototype.trim`: strip leading and
trailing whitespace (kernel-friendly replacement for `String.trim`). -/
def jsTrim (s : String) : String :=
  ⟨((s.data.dropWhile Char.isWhitespace).reverse.dropWhile
      Char.isWhitespace).reverse⟩

/-- A course record as stored by the data layer: `{ name, credits, grade }`
with `credits` an already-parsed number and `grade` a grade token. -/
structure CourseRec where
  name : String
  credits : ℚ
  grade : String
deriving DecidableEq, Repr

/-- The static `GPAProcessor.gradePoints` object, as an association list
in source order. -/
def gradePoints : List (String × ℚ) :=
  [("4.0", 4.0), ("3.7", 3.7), ("3.3", 3.3), ("3.0", 3.0),
   ("2.7", 2.7), ("2.3", 2.3), ("2.0", 2.0), ("1.7", 1.7),
   ("1.3", 1.3), ("1.0", 1.0), ("0.0", 0.0)]

/-- The key set of `gradePoints` (the fixed grade token list). -/
def gradeTokens : List String := gradePoints.map Prod.fst

/-- `gradePoints.hasOwnProperty grade`. -/
def hasGrade (grade : String) : Bool := (gradePoints.lookup grade).isSome

/-- The grade-point value of a token: `some` on the 11 fixed tokens,
`none` (lookup failure) on every other string. -/
def gradePointOf (grade : String) : Option ℚ := gradePoints.lookup grade

/-- `GPAProcessor.validateCourse(name, credits, grade)`: pushes each
applicable message onto an error list, in source order. -/
def validateCourse (name : String) (credits : JSNum) (grade : String) :
    List String :=
  let errors : List String := []
  let errors :=
    if jsTrim name = "" then errors ++ ["Course name is required"] else errors
  let errors :=
    if jsIsNaN credits || jsLeZero credits then
      errors ++ ["Credits must be a positive number"]
    else errors
  let errors :=
    if !hasGrade grade then errors ++ ["Invalid grade selected"] else errors
  errors

/-- NaN-propagating addition on `Option ℚ`. -/
def addN : Option ℚ → Option ℚ → Option ℚ
  | some a, some b => some (a + b)
  | _, _ => none

/-- NaN-propagating multiplication on `Option ℚ`. -/
def mulN : Option ℚ → Option ℚ → Option ℚ
  | some a, some b => some (a * b)
  | _, _ => none

/-- NaN-propagating division on `Option ℚ` (only applied with a positive
divisor in `calculateGPA`, mirroring the `totalCredits > 0` guard). -/
def divN : Option ℚ → Option ℚ → Option ℚ
  | some a, some b => some (a / b)
  | _, _ => none

/-- The result object of `GPAProcessor.calculateGPA`.  `gpa` and
`totalPoints` carry the numeric value of the `toFixed(2)` strings; `none`
models NaN. -/
structure GPAResult where
  gpa : Option ℚ
  totalCredits : ℚ
  totalPoints : Option ℚ
  courseCount : ℕ
deriving DecidableEq, Repr

/-- `GPAProcessor.calculateGPA(courses)`: early return of exact zeros on
the empty list, otherwise `forEach` accumulation of credits and
credit-weighted grade points (the grade token goes through `parseFloat`),
a divide-by-zero-guarded quotient, and `toFixed(2)` on gpa and points. -/
def calculateGPA (courses : List CourseRec) : GPAResult :=
  if courses.length = 0 then
    { gpa := some 0, totalCredits := 0, totalPoints := some 0, courseCount := 0 }
  else
    let totalCredits := courses.foldl (fun acc c => acc + c.credits) 0
    let totalPoints :=
      courses.foldl
        (fun acc c => addN acc (mulN (some c.credits) (parseFloatQ c.grade)))
        (some 0)
    let gpa := if totalCredits > 0 then divN totalPoints (some totalCredits)
      else some 0
    { gpa := gpa.map jsToFixed2,
      totalCredits := totalCredits,
      totalPoints := totalPoints.map jsToFixed2,
      courseCount := courses.length }

/-- A structured JSON value, the shape of the persisted blob
(`JSON.stringify` / `JSON.parse` are modelled at this structural level;
the concrete string layer is the platform, not this program). -/
inductive Json where
  | jnull : Json
  | jnum (q : ℚ) : Json
  | jstr (s : String) : Json
  | jarr (elems : List Json) : Json
  | jobj (fields : List (String × Json)) : Json

/-- Serialization of one course record, the plain-object shape
`JSON.stringify` produces for `{ name, credits, grade }`. -/
def encodeCourse (c : CourseRec) : Json :=
  Json.jobj [("name", Json.jstr c.name), ("credits", Json.jnum c.credits),
    ("grade", Json.jstr c.grade)]

/-- Serialization of the full course array. -/
def encodeCourses (cs : List CourseRec) : Json :=
  Json.jarr (cs.map encodeCourse)

/-- Field access on a parsed JSON object (`undefined`, modelled as
`jnull`, when absent). -/
def jField (fields : List (String × Json)) (k : String) : Json :=
  (fields.lookup k).getD Json.jnull

/-- Reading a parsed JSON value as a string; the default only applies to
out-of-shape blobs this program never writes. -/
def jStr : Json → String
  | Json.jstr s => s
  | _ => ""

/-- Reading a parsed JSON value as a number; the default only applies to
out-of-shape blobs this program never writes. -/
def jNum : Json → ℚ
  | Json.jnum q => q
  | _ => 0

/-- Reconstruction of one course record from its parsed JSON shape. -/
def decodeCourse (j : Json) : CourseRec :=
  match j with
  | Json.jobj fields =>
      { name := jStr (jField fields "name"),
        credits := jNum (jField fields "credits"),
        grade := jStr (jField fields "grade") }
  | _ => { name := "", credits := 0, grade := "" }

/-- Reconstruction of the course array from the parsed persisted blob. -/
def decodeCourses (j : Json) : List CourseRec :=
  match j with
  | Json.jarr elems => elems.map decodeCourse
  | _ => []

/-- The `GPADataLayer` object: the in-memory `courses` array together
with the content of the single `localStorage` key
`gpaCalculatorCourses` (`none` when the key is absent). -/
structure GPADataLayer where
  courses : List CourseRec
  storage : Option Json

/-- `GPADataLayer.loadFromStorage`: parse the persisted blob, or the
empty array when the key is absent. -/
def loadFromStorage (storage : Option Json) : List CourseRec :=
  match storage with
  | none => []
  | some j => decodeCourses j

/-- The `GPADataLayer` constructor: a fresh instance over a given
persisted storage, with `courses` loaded from it. -/
def GPADataLayer.init (storage : Option Json) : GPADataLayer :=
  { courses := loadFromStorage storage, storage := storage }

/-- `GPADataLayer.saveToStorage`: overwrite the persisted blob with the
serialized in-memory sequence. -/
def GPADataLayer.saveToStorage (s : GPADataLayer) : GPADataLayer :=
  { s with storage := some (encodeCourses s.courses) }

/-- `GPADataLayer.addCourse`: append, then persist. -/
def GPADataLayer.addCourse (s : GPADataLayer) (c : CourseRec) : GPADataLayer :=
  GPADataLayer.saveToStorage { s with courses := s.courses ++ [c] }

/-- `Array.prototype.splice(index, 1)` on a list: ECMAScript clamps a
negative index to `max (length + index) 0` and a non-negative one to
`min index length`, then removes at most one element there. -/
def spliceOne {α : Type} (l : List α) (index : ℤ) : List α :=
  let start : ℤ :=
    if index < 0 then max ((l.length : ℤ) + index) 0
    else min index (l.length : ℤ)
  l.take start.toNat ++ l.drop (start.toNat + 1)

/-- `GPADataLayer.removeCourse`: `splice(index, 1)`, then persist. -/
def GPADataLayer.removeCourse (s : GPADataLayer) (index : ℤ) : GPADataLayer :=
  GPADataLayer.saveToStorage { s with courses := spliceOne s.courses index }

/-- `GPADataLayer.clearAllCourses`: empty the sequence, then persist. -/
def GPADataLayer.clearAllCourses (s : GPADataLayer) : GPADataLayer :=
  GPADataLayer.saveToStorage { s with courses := [] }

/-- `GPADataLayer.getAllCourses`. -/
def GPADataLayer.getAllCourses (s : GPADataLayer) : List CourseRec :=
  s.courses

/-- The credits field of a stored course record as JavaScript holds it:
a number (possibly NaN or an infinity, since the validation check lets
positive infinity through), or the null that `JSON.stringify` produces
for a non-finite number once the record has been persisted and
reloaded. -/
inductive JSCredits where
  | num (n : JSNum) : JSCredits
  | null : JSCredits
deriving DecidableEq

/-- A course record over the full dynamic range JavaScript can store:
like `CourseRec`, but the credits field may hold a non-finite number or
null.  `CourseRec` (finite credits) covers the Course data model of the
spec; this type captures what the store can actually hold. -/
structure JSCourseRec where
  name : String
  credits : JSCredits
  grade : String
deriving DecidableEq

/-- Serialization of a credits value: `JSON.stringify` writes a finite
number as a JSON number, and NaN, an infinity, or null itself as
null. -/
def encodeJSCredits : JSCredits → Json
  | JSCredits.num (JSNum.num q) => Json.jnum q
  | _ => Json.jnull

/-- Serialization of one dynamically-typed course record. -/
def encodeJSCourse (c : JSCourseRec) : Json :=
  Json.jobj [("name", Json.jstr c.name),
    ("credits", encodeJSCredits c.credits), ("grade", Json.jstr c.grade)]

/-- Serialization of the full dynamically-typed course array. -/
def encodeJSCourses (cs : List JSCourseRec) : Json :=
  Json.jarr (cs.map encodeJSCourse)

/-- Reading a parsed credits field back: a JSON number is a finite
number, null is null (the only two shapes this program writes; other
shapes default to null). -/
def decodeJSCredits : Json → JSCredits
  | Json.jnum q => JSCredits.num (JSNum.num q)
  | _ => JSCredits.null

/-- Reconstruction of one dynamically-typed course record. -/
def decodeJSCourse (j : Json) : JSCourseRec :=
  match j with
  | Json.jobj fields =>
      { name := jStr (jField fields "name"),
        credits := decodeJSCredits (jField fields "credits"),
        grade := jStr (jField fields "grade") }
  | _ => { name := "", credits := JSCredits.null, grade := "" }

/-- Reconstruction of the dynamically-typed course array. -/
def decodeJSCourses (j : Json) : List JSCourseRec :=
  match j with
  | Json.jarr elems => elems.map decodeJSCourse
  | _ => []

/-- The `GPADataLayer` object over the full dynamic range of records. -/
structure JSDataLayer where
  courses : List JSCourseRec
  storage : Option Json

/-- `GPADataLayer.loadFromStorage` over dynamically-typed records. -/
def jsLoadFromStorage (storage : Option Json) : List JSCourseRec :=
  match storage with
  | none => []
  | some j => decodeJSCourses j

/-- The constructor of the dynamically-typed data layer. -/
def JSDataLayer.init (storage : Option Json) : JSDataLayer :=
  { courses := jsLoadFromStorage storage, storage := storage }

/-- `saveToStorage` over dynamically-typed records. -/
def JSDataLayer.saveToStorage (s : JSDataLayer) : JSDataLayer :=
  { s with storage := some (encodeJSCourses s.courses) }

/-- `addCourse` over dynamically-typed records: append, then persist. -/
def JSDataLayer.addCourse (s : JSDataLayer) (c : JSCourseRec) : JSDataLayer :=
  JSDataLayer.saveToStorage { s with courses := s.courses ++ [c] }

/-- `removeCourse` over dynamically-typed records. -/
def JSDataLayer.removeCourse (s : JSDataLayer) (index : ℤ) : JSDataLayer :=
  JSDataLayer.saveToStorage { s with courses := spliceOne s.courses index }

/-- `clearAllCourses` over dynamically-typed records. -/
def JSDataLayer.clearAllCourses (s : JSDataLayer) : JSDataLayer :=
  JSDataLayer.saveToStorage { s with courses := [] }

/-- One observable operation on the data layer, as the UI layer drives
it: a validated add (the handler in `GPAUI.addCourseHandler` calls
`addCourse` exactly when `validateCourse` returned no errors; the
credits argument is any `parseFloat` result that passes the check,
including positive infinity), a rejected add (state untouched), a
removal, a clear-all, an explicit save, or a reload (a fresh data layer
constructed over the same storage). -/
inductive StepJS : JSDataLayer → JSDataLayer → Prop where
  | addValid (s : JSDataLayer) (name : String) (credits : JSNum)
      (grade : String) (h : validateCourse name credits grade = []) :
      StepJS s (s.addCourse
        { name := name, credits := JSCredits.num credits, grade := grade })
  | addRejected (s : JSDataLayer) : StepJS s s
  | remove (s : JSDataLayer) (index : ℤ) : StepJS s (s.removeCourse index)
  | clear (s : JSDataLayer) : StepJS s s.clearAllCourses
  | save (s : JSDataLayer) : StepJS s s.saveToStorage
  | reload (s : JSDataLayer) : StepJS s (JSDataLayer.init s.storage)

/-- States reachable from the initial application state (a fresh data
layer over absent storage) through the observable operations. -/
inductive ReachableJS : JSDataLayer → Prop where
  | init : ReachableJS (JSDataLayer.init none)
  | step {s t : JSDataLayer} : ReachableJS s → StepJS s t → ReachableJS t

/-- A credits value the store invariant allows: never NaN and never a
number at most zero.  It is either a number passing the validation check
(a positive finite number or positive infinity), or the null that
persistence produces from a non-finite number. -/
def creditsOk : JSCredits → Bool
  | JSCredits.num n => !(jsIsNaN n || jsLeZero n)
  | JSCredits.null => true

/-- The record property the store invariant maintains: non-empty trimmed
name, grade in the fixed token set, allowed credits value. -/
def GoodRec (c : JSCourseRec) : Prop :=
  jsTrim c.name ≠ "" ∧ hasGrade c.grade = true ∧ creditsOk c.credits = true

/-- Definition following the spec wording for `removeAt` (section 4.2 /
section 8): removal at a 0-based in-bounds index, failure with
`IndexOutOfRange` otherwise.  Stated for comparison with the
`splice`-based code. -/
def specRemoveAt (cs : List CourseRec) (index : ℤ) :
    Except String (List CourseRec) :=
  if 0 ≤ index ∧ index < (cs.length : ℤ) then
    Except.ok (cs.eraseIdx index.toNat)
  else Except.error "IndexOutOfRange"

/-- Definition following the claim wording for C5: a credits value that
is a finite positive number. -/
def specFinitePositive : JSNum → Bool
  | JSNum.num q => decide (0 < q)
  | _ => false

/-- NaN-propagating sum of a list of possibly-NaN numbers. -/
def sumN (l : List (Option ℚ)) : Option ℚ := l.foldr addN (some 0)

/-- The data-layer invariant: every stored record is `GoodRec`, and the
persisted blob is absent or the serialization of some all-`GoodRec`
sequence (serialization is lossy on infinities, so after a reload the
blob need not serialize the in-memory sequence verbatim). -/
def JSInv (s : JSDataLayer) : Prop :=
  (∀ c ∈ s.courses, GoodRec c) ∧
  (s.storage = none ∨
    ∃ cs : List JSCourseRec, (∀ c ∈ cs, GoodRec c) ∧
      s.storage = some (encodeJSCourses cs))

/-! ### Helper lemmas -/

theorem addN_zero_left (x : Option ℚ) : addN (some 0) x = x := by
  cases x <;> simp [addN]

theorem addN_zero_right (x : Option ℚ) : addN x (some 0) = x := by
  cases x <;> simp [addN]

theorem addN_comm (x y : Option ℚ) : addN x y = addN y x := by
  cases x <;> cases y <;> simp [addN, add_comm]

theorem addN_assoc (x y z : Option ℚ) :
    addN (addN x y) z = addN x (addN y z) := by
  cases x <;> cases y <;> cases z <;> simp [addN, add_assoc]

theorem foldl_add_eq_sum {α : Type} (f : α → ℚ) (l : List α) (init : ℚ) :
    l.foldl (fun acc c => acc + f c) init = init + (l.map f).sum := by
  induction l generalizing init with
  | nil => simp
  | cons x xs ih => simp [ih, add_assoc]

theorem sumN_cons (a : Option ℚ) (l : List (Option ℚ)) :
    sumN (a :: l) = addN a (sumN l) := rfl

theorem foldl_addN_eq {α : Type} (g : α → Option ℚ) (l : List α)
    (init : Option ℚ) :
    l.foldl (fun acc c => addN acc (g c)) init = addN init (sumN (l.map g)) := by
  induction l generalizing init with
  | nil => exact (addN_zero_right init).symm
  | cons x xs ih =>
      rw [List.map_cons, List.foldl_cons, ih, addN_assoc, sumN_cons]

theorem sumN_perm {l₁ l₂ : List (Option ℚ)} (h : l₁.Perm l₂) :
    sumN l₁ = sumN l₂ := by
  induction h with
  | nil => rfl
  | cons x _ ih => rw [sumN_cons, sumN_cons, ih]
  | swap x y l =>
      rw [sumN_cons, sumN_cons, sumN_cons, sumN_cons,
        ← addN_assoc, addN_comm y x, addN_assoc]
  | trans _ _ ih₁ ih₂ => exact ih₁.trans ih₂

theorem sumN_map_some {α : Type} (f : α → ℚ) (l : List α) :
    sumN (l.map fun a => some (f a)) = some ((l.map f).sum) := by
  induction l with
  | nil => rfl
  | cons x xs ih =>
      rw [List.map_cons, sumN_cons, ih, List.map_cons, List.sum_cons]
      rfl

theorem parseFloatQ_of_token :
    ∀ g ∈ gradeTokens, parseFloatQ g = some ((gradePointOf g).getD 0) := by
  decide

theorem lookup_isSome_iff_mem {β : Type} (l : List (String × β)) (k : String) :
    (l.lookup k).isSome ↔ k ∈ l.map Prod.fst := by
  induction l with
  | nil => simp
  | cons p t ih =>
      obtain ⟨a, b⟩ := p
      rw [List.lookup_cons]
      cases hka : (k == a) with
      | true =>
          simp only [List.map_cons, List.mem_cons]
          simp [beq_iff_eq.mp hka]
      | false =>
          have hne : k ≠ a := by simpa using hka
          simp [ih, hne]

theorem mem_values_of_lookup {β : Type} (l : List (String × β)) (k : String)
    (v : β) (h : l.lookup k = some v) : v ∈ l.map Prod.snd := by
  induction l with
  | nil => simp at h
  | cons p t ih =>
      obtain ⟨a, b⟩ := p
      rw [List.lookup_cons] at h
      cases hka : (k == a) with
      | true => rw [hka] at h; simp at h; simp [h]
      | false => rw [hka] at h; simp at h; simp [ih h]

theorem hasGrade_iff_mem (g : String) : hasGrade g = true ↔ g ∈ gradeTokens := by
  simp [hasGrade, gradeTokens, lookup_isSome_iff_mem]

theorem decodeCourse_encodeCourse (c : CourseRec) :
    decodeCourse (encodeCourse c) = c := by
  cases c
  rfl

theorem decodeCourses_encodeCourses (cs : List CourseRec) :
    decodeCourses (encodeCourses cs) = cs := by
  show (cs.map encodeCourse).map decodeCourse = cs
  rw [List.map_map]
  have h : cs.map (decodeCourse ∘ encodeCourse) = cs.map id :=
    List.map_congr_left fun c _ => decodeCourse_encodeCourse c
  rw [h, List.map_id]

theorem validateCourse_eq (name : String) (credits : JSNum) (grade : String) :
    validateCourse name credits grade =
      (if jsTrim name = "" then ["Course name is required"] else []) ++
      (if jsIsNaN credits || jsLeZero credits then
        ["Credits must be a positive number"] else []) ++
      (if !hasGrade grade then ["Invalid grade selected"] else []) := by
  simp only [validateCourse]
  split <;> split <;> split <;> simp

theorem spliceOne_out_of_bounds {α : Type} (l : List α) (i : ℤ)
    (h : l = [] ∨ (l.length : ℤ) ≤ i) : spliceOne l i = l := by
  rcases h with h | h
  · subst h; simp [spliceOne]
  · have h0 : ¬ i < 0 := by omega
    simp only [spliceOne, if_neg h0, min_eq_right h]
    rw [Int.toNat_natCast, List.take_length,
      List.drop_eq_nil_of_le (Nat.le_succ _), List.append_nil]

theorem spliceOne_neg_index {α : Type} (l : List α) (i : ℤ)
    (h₁ : -(l.length : ℤ) ≤ i) (h₂ : i ≤ -1) :
    spliceOne l i = l.eraseIdx ((l.length : ℤ) + i).toNat := by
  have h0 : i < 0 := by omega
  have hmax : max ((l.length : ℤ) + i) 0 = (l.length : ℤ) + i :=
    max_eq_left (by omega)
  simp only [spliceOne, if_pos h0, hmax]
  rw [List.eraseIdx_eq_take_drop_succ]

theorem validateCourse_nil_iff (name : String) (credits : JSNum)
    (grade : String) :
    validateCourse name credits grade = [] ↔
      (jsTrim name ≠ "" ∧ (jsIsNaN credits || jsLeZero credits) = false ∧
        hasGrade grade = true) := by
  rw [validateCourse_eq]
  by_cases h1 : jsTrim name = "" <;>
    by_cases h2 : (jsIsNaN credits || jsLeZero credits) = true <;>
      by_cases h3 : hasGrade grade = true <;>
        simp [h1, h2, h3]

theorem goodRec_roundtrip (c : JSCourseRec) (h : GoodRec c) :
    GoodRec (decodeJSCourse (encodeJSCourse c)) := by
  obtain ⟨name, credits, grade⟩ := c
  obtain ⟨h1, h2, h3⟩ := h
  cases credits with
  | num n =>
      cases n with
      | nan => simp [creditsOk, jsIsNaN] at h3
      | inf b =>
          cases b with
          | false => simp [creditsOk, jsLeZero] at h3
          | true => exact ⟨h1, h2, rfl⟩
      | num q => exact ⟨h1, h2, h3⟩
  | null => exact ⟨h1, h2, rfl⟩

theorem decodeJSCourses_encodeJSCourses (cs : List JSCourseRec) :
    decodeJSCourses (encodeJSCourses cs) =
      cs.map fun c => decodeJSCourse (encodeJSCourse c) := by
  show (cs.map encodeJSCourse).map decodeJSCourse = _
  rw [List.map_map]
  rfl

theorem stepJS_preserves_inv {s t : JSDataLayer} (hs : JSInv s)
    (st : StepJS s t) : JSInv t := by
  cases st with
  | addValid name credits grade h =>
      have hv := (validateCourse_nil_iff name credits grade).mp h
      have hgood : GoodRec ⟨name, JSCredits.num credits, grade⟩ :=
        ⟨hv.1, hv.2.2, by simp [creditsOk, hv.2.1]⟩
      have hall : ∀ c ∈ s.courses ++ [(⟨name, JSCredits.num credits,
          grade⟩ : JSCourseRec)], GoodRec c := by
        intro c hc
        rcases List.mem_append.mp hc with hold | hnew
        · exact hs.1 c hold
        · rw [List.mem_singleton.mp hnew]
          exact hgood
      exact ⟨hall, Or.inr ⟨_, hall, rfl⟩⟩
  | addRejected => exact hs
  | remove index =>
      have hall : ∀ c ∈ spliceOne s.courses index, GoodRec c := by
        intro c hc
        rcases List.mem_append.mp hc with hl | hr
        · exact hs.1 c (List.take_subset _ _ hl)
        · exact hs.1 c (List.drop_subset _ _ hr)
      exact ⟨hall, Or.inr ⟨_, hall, rfl⟩⟩
  | clear =>
      exact ⟨fun c hc => absurd hc (List.not_mem_nil c),
        Or.inr ⟨[], fun c hc => absurd hc (List.not_mem_nil c), rfl⟩⟩
  | save => exact ⟨hs.1, Or.inr ⟨s.courses, hs.1, rfl⟩⟩
  | reload =>
      rcases hs.2 with h | ⟨cs, hcs, h⟩
      · refine ⟨fun c hc => ?_, Or.inl h⟩
        rw [JSDataLayer.init] at hc
        rw [h] at hc
        exact absurd hc (List.not_mem_nil c)
      · constructor
        · intro c hc
          rw [JSDataLayer.init] at hc
          rw [h] at hc
          have hc2 : c ∈ cs.map fun c0 =>
              decodeJSCourse (encodeJSCourse c0) := by
            rw [← decodeJSCourses_encodeJSCourses]
            exact hc
          obtain ⟨c0, hc0, rfl⟩ := List.mem_map.mp hc2
          exact goodRec_roundtrip c0 (hcs c0 hc0)
        · exact Or.inr ⟨cs, hcs, h⟩

theorem reachableJS_inv {s : JSDataLayer} (h : ReachableJS s) : JSInv s := by
  induction h with
  | init => exact ⟨fun c hc => absurd hc (List.not_mem_nil c), Or.inl rfl⟩
  | step _ st ih => exact stepJS_preserves_inv ih st

/-! ### Claim theorems -/

/-- Claim C2: `calculateGPA` applied to the empty course sequence returns
exactly zero gpa, totalCredits, totalPoints and courseCount — a proper
value, not an undefined result and not an error. -/
theorem calculateGPA_empty :
    calculateGPA [] =
      { gpa := some 0, totalCredits := 0, totalPoints := some 0,
        courseCount := 0 } := rfl

/-- Claim C3 (counterexample): at the concrete input of an empty store
and index 0, the `splice`-based removal of the code succeeds with an
unchanged sequence, which differs from the `IndexOutOfRange` failure the
claim prescribes (compare `specRemoveAt`, the spec-worded definition). -/
theorem removeCourse_no_failure_counterexample :
    Except.ok (spliceOne ([] : List CourseRec) 0) ≠ specRemoveAt [] 0 := by
  intro hcontra
  simp [spliceOne, specRemoveAt] at hcontra

/-- Claim C3 (amended): `removeCourse` with an index out of the current
bounds (any index on an empty store, or any index at or above the
length) is a silent no-op: the stored course sequence is unchanged, and
no failure is signalled. -/
theorem removeCourse_out_of_bounds (s : GPADataLayer) (index : ℤ)
    (h : s.courses = [] ∨ (s.courses.length : ℤ) ≤ index) :
    (s.removeCourse index).courses = s.courses :=
  spliceOne_out_of_bounds s.courses index h

/-- Claim C3 (witness): the amended statement at an empty store and
index 7. -/
theorem removeCourse_out_of_bounds_witness :
    ((GPADataLayer.init none).courses = [] ∨
      (((GPADataLayer.init none).courses.length : ℤ) ≤ 7)) ∧
    ((GPADataLayer.init none).removeCourse 7).courses =
      (GPADataLayer.init none).courses :=
  ⟨Or.inl rfl,
    removeCourse_out_of_bounds (GPADataLayer.init none) 7 (Or.inl rfl)⟩

/-- Claim C10: for a negative index `i` with `-length ≤ i ≤ -1`,
`removeCourse` removes the element at position `length + i` (counting
from the end of the sequence), rather than being a no-op or an error. -/
theorem removeCourse_negative_index (s : GPADataLayer) (index : ℤ)
    (h₁ : -(s.courses.length : ℤ) ≤ index) (h₂ : index ≤ -1) :
    (s.removeCourse index).courses =
      s.courses.eraseIdx ((s.courses.length : ℤ) + index).toNat :=
  spliceOne_neg_index s.courses index h₁ h₂

/-- Claim C10 (witness): `removeCourse (-1)` on a three-course store
removes the last course. -/
theorem removeCourse_negative_index_witness :
    (-(((GPADataLayer.mk [⟨"A", 3, "4.0"⟩, ⟨"B", 3, "3.0"⟩, ⟨"C", 4, "2.7"⟩]
          none).courses.length : ℤ)) ≤ -1 ∧ ((-1 : ℤ) ≤ -1)) ∧
    ((GPADataLayer.mk [⟨"A", 3, "4.0"⟩, ⟨"B", 3, "3.0"⟩, ⟨"C", 4, "2.7"⟩]
        none).removeCourse (-1)).courses =
      [⟨"A", 3, "4.0"⟩, ⟨"B", 3, "3.0"⟩] := by
  refine ⟨⟨by decide, by decide⟩, ?_⟩
  have h := removeCourse_negative_index
    (GPADataLayer.mk [⟨"A", 3, "4.0"⟩, ⟨"B", 3, "3.0"⟩, ⟨"C", 4, "2.7"⟩] none)
    (-1) (by decide) (by decide)
  rw [h]
  decide

/-- Claim C6: persistence round trip — adding a validated course and then
loading through a fresh data-layer instance over the same storage yields
the previous in-memory sequence with the course appended. -/
theorem addCourse_load_roundtrip (s : GPADataLayer) (c : CourseRec)
    (_valid : validateCourse c.name (JSNum.num c.credits) c.grade = []) :
    (GPADataLayer.init (s.addCourse c).storage).courses = s.courses ++ [c] :=
  decodeCourses_encodeCourses (s.courses ++ [c])

/-- Claim C6 (witness): adding a valid course to an initially empty store
and loading on a fresh instance yields exactly that one course. -/
theorem addCourse_load_roundtrip_witness :
    validateCourse "CS101" (JSNum.num 3) "4.0" = [] ∧
    (GPADataLayer.init ((GPADataLayer.init none).addCourse
        ⟨"CS101", 3, "4.0"⟩).storage).courses = [⟨"CS101", 3, "4.0"⟩] :=
  ⟨by decide,
    addCourse_load_roundtrip (GPADataLayer.init none) ⟨"CS101", 3, "4.0"⟩
      (by decide)⟩

/-- Claim C9 (counterexample): a data-layer state reachable through the
observable operations — one validated add whose credits value is
positive infinity, which the validation check accepts — holds a course
record whose credits value is not a finite positive number, refuting
the claim that the store never contains a record with a non-finite
credits value. -/
theorem store_infinite_credits_counterexample :
    ReachableJS ((JSDataLayer.init none).addCourse
      ⟨"CS101", JSCredits.num (JSNum.inf true), "4.0"⟩) ∧
    (⟨"CS101", JSCredits.num (JSNum.inf true), "4.0"⟩ : JSCourseRec) ∈
      ((JSDataLayer.init none).addCourse
        ⟨"CS101", JSCredits.num (JSNum.inf true), "4.0"⟩).courses ∧
    specFinitePositive (JSNum.inf true) = false :=
  ⟨ReachableJS.step ReachableJS.init
      (StepJS.addValid (JSDataLayer.init none) "CS101" (JSNum.inf true)
        "4.0" (by decide)),
    by decide, by decide⟩

/-- Claim C9 (amended): in every data-layer state reachable through the
observable operations (adds gated by validation exactly as the UI
handler performs them, removals, clears, saves, reloads), every stored
course record has a non-empty trimmed name, a grade token in the fixed
set, and a credits value that is never NaN and never a number at most
zero: it is either a number passing the validation check — a positive
finite number or positive infinity — or the null that persistence
produces from a non-finite number. -/
theorem js_store_records_good {s : JSDataLayer} (h : ReachableJS s) :
    ∀ c ∈ s.courses,
      jsTrim c.name ≠ "" ∧ hasGrade c.grade = true ∧
        creditsOk c.credits = true :=
  fun c hc => (reachableJS_inv h).1 c hc

/-- Claim C9 (witness): the invariant instantiated after one validated
add from the initial state. -/
theorem js_store_records_good_witness :
    jsTrim "CS101" ≠ "" ∧ hasGrade "4.0" = true ∧
      creditsOk (JSCredits.num (JSNum.num 3)) = true :=
  js_store_records_good
    (ReachableJS.step ReachableJS.init
      (StepJS.addValid (JSDataLayer.init none) "CS101" (JSNum.num 3) "4.0"
        (by decide)))
    ⟨"CS101", JSCredits.num (JSNum.num 3), "4.0"⟩ (by decide)

theorem credits_msg_mem (name : String) (credits : JSNum) (grade : String) :
    ("Credits must be a positive number" ∈ validateCourse name credits grade)
      ↔ (jsIsNaN credits || jsLeZero credits) = true := by
  rw [validateCourse_eq]
  by_cases h1 : jsTrim name = "" <;>
    by_cases h2 : (jsIsNaN credits || jsLeZero credits) = true <;>
      by_cases h3 : hasGrade grade = true <;>
        simp [h1, h2, h3]

theorem grade_msg_mem (name : String) (credits : JSNum) (grade : String) :
    ("Invalid grade selected" ∈ validateCourse name credits grade)
      ↔ ¬ hasGrade grade = true := by
  rw [validateCourse_eq]
  by_cases h1 : jsTrim name = "" <;>
    by_cases h2 : (jsIsNaN credits || jsLeZero credits) = true <;>
      by_cases h3 : hasGrade grade = true <;>
        simp [h1, h2, h3]

/-- Claim C4: the three validation checks run independently, all
applicable messages are returned together without short-circuiting, the
four spec examples return exactly the listed errors, and an empty result
means valid. -/
theorem validateCourse_runs_all_checks :
    validateCourse "" (JSNum.num 3) "4.0" = ["Course name is required"] ∧
    validateCourse "CS101" (JSNum.num (-1)) "4.0" =
      ["Credits must be a positive number"] ∧
    validateCourse "CS101" (JSNum.num 3) "9.9" = ["Invalid grade selected"] ∧
    validateCourse "" (JSNum.num (-1)) "9.9" =
      ["Course name is required", "Credits must be a positive number",
        "Invalid grade selected"] ∧
    (∀ (name : String) (credits : JSNum) (grade : String),
      validateCourse name credits grade =
        (if jsTrim name = "" then ["Course name is required"] else []) ++
        (if jsIsNaN credits || jsLeZero credits then
          ["Credits must be a positive number"] else []) ++
        (if !hasGrade grade then ["Invalid grade selected"] else [])) ∧
    (∀ (name : String) (credits : JSNum) (grade : String),
      validateCourse name credits grade = [] ↔
        (jsTrim name ≠ "" ∧ (jsIsNaN credits || jsLeZero credits) = false ∧
          hasGrade grade = true)) := by
  refine ⟨by decide, by decide, by decide, by decide, validateCourse_eq, ?_⟩
  intro name credits grade
  rw [validateCourse_eq]
  by_cases h1 : jsTrim name = "" <;>
    by_cases h2 : (jsIsNaN credits || jsLeZero credits) = true <;>
      by_cases h3 : hasGrade grade = true <;>
        simp [h1, h2, h3]

/-- Claim C5 (counterexample): at the concrete credits value positive
infinity — which is not a finite positive number — the code reports no
credits error, so the claimed equivalence with "not a finite positive
number" fails. -/
theorem credits_infinity_counterexample :
    ¬ (("Credits must be a positive number" ∈
          validateCourse "CS101" (JSNum.inf true) "4.0") ↔
        ¬ specFinitePositive (JSNum.inf true) = true) := by decide

/-- Claim C5 (amended): the credits error is reported iff the credits
value is NaN, negative infinity, or a finite value at most zero;
positive infinity and every positive finite value are accepted. -/
theorem credits_error_iff (name : String) (credits : JSNum) (grade : String) :
    "Credits must be a positive number" ∈ validateCourse name credits grade ↔
      (credits = JSNum.nan ∨ credits = JSNum.inf false ∨
        ∃ q : ℚ, credits = JSNum.num q ∧ q ≤ 0) := by
  rw [credits_msg_mem]
  cases credits with
  | nan => simp [jsIsNaN, jsLeZero]
  | inf b => cases b <;> simp [jsIsNaN, jsLeZero]
  | num q => simp [jsIsNaN, jsLeZero]

/-- Claim C8: the grade-point lookup is defined for exactly the 11 fixed
tokens, each mapping to its numeric value, all values lie in [0, 4], the
lookup fails for every other string, and validation accepts a grade iff
it is one of the fixed tokens. -/
theorem gradeScale_fixed_tokens :
    (gradePointOf "4.0" = some 4 ∧ gradePointOf "3.7" = some (37/10) ∧
     gradePointOf "3.3" = some (33/10) ∧ gradePointOf "3.0" = some 3 ∧
     gradePointOf "2.7" = some (27/10) ∧ gradePointOf "2.3" = some (23/10) ∧
     gradePointOf "2.0" = some 2 ∧ gradePointOf "1.7" = some (17/10) ∧
     gradePointOf "1.3" = some (13/10) ∧ gradePointOf "1.0" = some 1 ∧
     gradePointOf "0.0" = some 0) ∧
    gradeTokens.length = 11 ∧
    (∀ g : String, (gradePointOf g).isSome ↔ g ∈ gradeTokens) ∧
    (∀ g : String,
      0 ≤ (gradePointOf g).getD 0 ∧ (gradePointOf g).getD 0 ≤ 4) ∧
    (∀ (name : String) (credits : JSNum) (grade : String),
      "Invalid grade selected" ∈ validateCourse name credits grade ↔
        grade ∉ gradeTokens) := by
  refine ⟨by decide, by decide, ?_, ?_, ?_⟩
  · intro g
    exact lookup_isSome_iff_mem gradePoints g
  · intro g
    cases h : gradePointOf g with
    | none => simp
    | some q =>
        have hval : ∀ v ∈ gradePoints.map Prod.snd, 0 ≤ v ∧ v ≤ 4 := by
          decide
        have hq := mem_values_of_lookup gradePoints g q h
        simp only [Option.getD_some]
        exact hval q hq
  · intro name credits grade
    rw [grade_msg_mem, hasGrade_iff_mem]

/-- Claim C1 (counterexample): with the courses [(1 credit, grade "4.0"),
(2 credits, grade "3.0")] the returned gpa is 3.33 — the quotient rounded
to two decimal places by `toFixed(2)` — not the exact quotient 10/3 of
the point sum by the credit sum that the claim requires. -/
theorem calculateGPA_rounds_counterexample :
    (calculateGPA [⟨"A", 1, "4.0"⟩, ⟨"B", 2, "3.0"⟩]).gpa ≠
      some ((1 * 4 + 2 * 3 : ℚ) / (1 + 2)) := by decide

/-- Claim C1 (amended): for every non-empty course sequence whose grade
tokens are in the fixed GradeScale set, `calculateGPA` returns
totalCredits the sum of the credits, courseCount the length of the
sequence, totalPoints the sum of credits times grade-point values rounded
to two decimal places, and gpa the quotient of the unrounded point sum by
totalCredits, rounded to two decimal places (0 when totalCredits is not
positive). -/
theorem calculateGPA_totals (courses : List CourseRec) (hne : courses ≠ [])
    (hg : ∀ c ∈ courses, c.grade ∈ gradeTokens) :
    calculateGPA courses =
      { gpa := some (jsToFixed2
          (if 0 < (courses.map CourseRec.credits).sum then
            (courses.map fun c =>
              c.credits * (gradePointOf c.grade).getD 0).sum /
              (courses.map CourseRec.credits).sum
          else 0)),
        totalCredits := (courses.map CourseRec.credits).sum,
        totalPoints := some (jsToFixed2
          (courses.map fun c =>
            c.credits * (gradePointOf c.grade).getD 0).sum),
        courseCount := courses.length } := by
  have h0 : ¬ courses.length = 0 := by
    simpa [List.length_eq_zero] using hne
  have hmap : courses.map
        (fun c => mulN (some c.credits) (parseFloatQ c.grade))
      = courses.map
        (fun c => some (c.credits * (gradePointOf c.grade).getD 0)) :=
    List.map_congr_left fun c hc => by
      rw [parseFloatQ_of_token c.grade (hg c hc)]
      rfl
  simp only [calculateGPA, if_neg h0]
  rw [foldl_add_eq_sum, foldl_addN_eq, hmap, sumN_map_some, addN_zero_left,
    zero_add]
  by_cases hpos : 0 < (courses.map CourseRec.credits).sum
  · simp [hpos, divN]
  · simp [hpos]

/-- Claim C1 (witness): the spec example [(3 credits, "4.0"), (3 credits,
"3.0")] gives totalCredits 6, totalPoints 21.00, gpa 3.50, courseCount 2. -/
theorem calculateGPA_totals_witness :
    calculateGPA [⟨"Calculus", 3, "4.0"⟩, ⟨"Physics", 3, "3.0"⟩] =
      { gpa := some (7/2), totalCredits := 6, totalPoints := some 21,
        courseCount := 2 } := by
  have h := calculateGPA_totals
    [⟨"Calculus", 3, "4.0"⟩, ⟨"Physics", 3, "3.0"⟩] (by decide) (by decide)
  rw [h]
  decide

/-- Claim C7: `calculateGPA` returns the same result on any permutation
of its input sequence (the accumulated sums are order-independent). -/
theorem calculateGPA_perm_invariant (l₁ l₂ : List CourseRec)
    (h : l₁.Perm l₂) : calculateGPA l₁ = calculateGPA l₂ := by
  have hlen := h.length_eq
  have hcred : l₁.foldl (fun acc c => acc + c.credits) 0
      = l₂.foldl (fun acc c => acc + c.credits) 0 := by
    rw [foldl_add_eq_sum, foldl_add_eq_sum,
      List.Perm.sum_eq (h.map CourseRec.credits)]
  have hpts : l₁.foldl
      (fun acc c => addN acc (mulN (some c.credits) (parseFloatQ c.grade)))
      (some 0) = l₂.foldl
      (fun acc c => addN acc (mulN (some c.credits) (parseFloatQ c.grade)))
      (some 0) := by
    rw [foldl_addN_eq, foldl_addN_eq,
      sumN_perm (h.map fun c => mulN (some c.credits) (parseFloatQ c.grade))]
  simp only [calculateGPA, hlen, hcred, hpts]

/-- Claim C7 (witness): swapping the two spec-example courses leaves the
result unchanged. -/
theorem calculateGPA_perm_invariant_witness :
    ([⟨"A", 3, "4.0"⟩, ⟨"B", 3, "3.0"⟩] : List CourseRec).Perm
      [⟨"B", 3, "3.0"⟩, ⟨"A", 3, "4.0"⟩] ∧
    calculateGPA [⟨"A", 3, "4.0"⟩, ⟨"B", 3, "3.0"⟩] =
      calculateGPA [⟨"B", 3, "3.0"⟩, ⟨"A", 3, "4.0"⟩] :=
  ⟨List.Perm.swap _ _ _,
    calculateGPA_perm_invariant _ _ (List.Perm.swap _ _ _)⟩
